import Mathlib

/-!
Verification of the local secret-custody subsystem of `agent-wallet-cli`.

The TypeScript sources are shallowly embedded:

* byte buffers (Node `Buffer`) are `List Nat` with entries `< 256`; fields
  that the code stores hex-encoded (token ids, salts, tags) are modeled at
  the byte level, since hex encoding is a bijection on byte strings;
* timestamps (`Date` values, compared through their millisecond epoch
  value) are `Int` milliseconds; ISO-8601 rendering is a bijection on the
  relevant range and is absorbed;
* the `node:crypto` / `argon2` primitives (HMAC-SHA256, HKDF, AES-256-GCM,
  Argon2id) and UTF-8 (de)coding are external libraries, so they are
  parameters (`CryptoPrims`); theorems that need cryptographic facts about
  them (AEAD round trip, AEAD authentication, KDF collision-freedom) take
  those facts as hypotheses;
* randomness (`secureRandom`, the fresh GCM nonce) and the clock are passed
  in explicitly;
* the filesystem is explicit state: one record slot per wallet name, since
  every persisted path is keyed by the wallet name alone;
* the staged repository carries two generations of the session module: the
  superseded `wallet-cli`-branded one (embedded as `createSession` /
  `validateSession` below, exercised only for behaviors on which both
  generations agree letter for letter) and the current hardened
  `agent-wallet-cli` one (embedded in the `Current` namespace: integrity
  tag over the canonical JSON of the full record, no token file written),
  which is the authority for the integrity-coverage and non-persistence
  claims;
* base64url (`Buffer.toString('base64url')` / `Buffer.from(_, 'base64url')`)
  is implemented concretely below: standard alphabet, no padding, invalid
  characters ignored on decode.
-/

/-- Byte strings: lists of naturals, each `< 256` where it matters. -/
abbrev Bytes := List Nat

/-! ### base64url -/

/-- Encode a byte list into base64url sextet values (3 bytes -> 4 sextets,
with the standard partial-group handling and no padding). -/
def encodeGroups : Bytes → List Nat
  | x :: y :: z :: rest =>
      x / 4 :: ((x % 4) * 16 + y / 16) :: ((y % 16) * 4 + z / 64) :: (z % 64)
        :: encodeGroups rest
  | [x, y] => [x / 4, (x % 4) * 16 + y / 16, (y % 16) * 4]
  | [x] => [x / 4, (x % 4) * 16]
  | [] => []

/-- Decode base64url sextet values back into bytes (4 sextets -> 3 bytes,
incomplete trailing bits dropped, as Node does). -/
def decodeGroups : List Nat → Bytes
  | a :: b :: c :: d :: rest =>
      (a * 4 + b / 16) :: ((b % 16) * 16 + c / 4) :: ((c % 4) * 64 + d)
        :: decodeGroups rest
  | [a, b, c] => [a * 4 + b / 16, (b % 16) * 16 + c / 4]
  | [a, b] => [a * 4 + b / 16]
  | _ => []

theorem decodeGroups_encodeGroups :
    ∀ l : Bytes, (∀ x ∈ l, x < 256) → decodeGroups (encodeGroups l) = l
  | [], _ => rfl
  | [x], h => by
      have hx : x < 256 := h x (by simp)
      simp only [encodeGroups, decodeGroups, List.cons.injEq, and_true]
      omega
  | [x, y], h => by
      have hx : x < 256 := h x (by simp)
      have hy : y < 256 := h y (by simp)
      simp only [encodeGroups, decodeGroups, List.cons.injEq, and_true]
      omega
  | x :: y :: z :: rest, h => by
      have hx : x < 256 := h x (by simp)
      have hy : y < 256 := h y (by simp)
      have hz : z < 256 := h z (by simp)
      have ih := decodeGroups_encodeGroups rest
        (fun a ha => h a (by simp [ha]))
      simp only [encodeGroups, decodeGroups, List.cons.injEq]
      refine ⟨by omega, by omega, by omega, ih⟩

theorem encodeGroups_lt64 :
    ∀ l : Bytes, (∀ x ∈ l, x < 256) → ∀ s ∈ encodeGroups l, s < 64
  | [], _ => by simp [encodeGroups]
  | [x], h => by
      have hx : x < 256 := h x (by simp)
      simp only [encodeGroups, List.mem_cons, List.not_mem_nil, or_false]
      rintro s (rfl | rfl) <;> omega
  | [x, y], h => by
      have hx : x < 256 := h x (by simp)
      have hy : y < 256 := h y (by simp)
      simp only [encodeGroups, List.mem_cons, List.not_mem_nil, or_false]
      rintro s (rfl | rfl | rfl) <;> omega
  | x :: y :: z :: rest, h => by
      have hx : x < 256 := h x (by simp)
      have hy : y < 256 := h y (by simp)
      have hz : z < 256 := h z (by simp)
      have ih := encodeGroups_lt64 rest (fun a ha => h a (by simp [ha]))
      simp only [encodeGroups, List.mem_cons]
      rintro s (rfl | rfl | rfl | rfl | hs)
      · omega
      · omega
      · omega
      · omega
      · exact ih s hs

/-- The base64url alphabet, by sextet value. -/
def b64Char (n : Nat) : Char :=
  if n < 26 then Char.ofNat (65 + n)
  else if n < 52 then Char.ofNat (97 + (n - 26))
  else if n < 62 then Char.ofNat (48 + (n - 52))
  else if n = 62 then '-'
  else '_'

/-- Inverse of the base64url alphabet; `none` for characters outside it
(Node ignores such characters when decoding). -/
def b64CharVal (c : Char) : Option Nat :=
  let n := c.toNat
  if 65 ≤ n ∧ n ≤ 90 then some (n - 65)
  else if 97 ≤ n ∧ n ≤ 122 then some (n - 97 + 26)
  else if 48 ≤ n ∧ n ≤ 57 then some (n - 48 + 52)
  else if n = 45 then some 62
  else if n = 95 then some 63
  else none

theorem b64CharVal_b64Char : ∀ n < 64, b64CharVal (b64Char n) = some n := by
  decide

/-- Source: `Buffer.toString('base64url')`. -/
def b64Encode (b : Bytes) : List Char := (encodeGroups b).map b64Char

/-- Source: `Buffer.from(s, 'base64url')`. -/
def b64Decode (s : List Char) : Bytes :=
  decodeGroups (s.filterMap b64CharVal)

theorem filterMap_b64CharVal_map :
    ∀ s : List Nat, (∀ x ∈ s, x < 64) →
      List.filterMap b64CharVal (s.map b64Char) = s
  | [], _ => rfl
  | x :: rest, h => by
      have hx := b64CharVal_b64Char x (h x (by simp))
      have ih := filterMap_b64CharVal_map rest (fun a ha => h a (by simp [ha]))
      simp [List.filterMap_cons, hx, ih]

theorem b64Decode_b64Encode (b : Bytes) (h : ∀ x ∈ b, x < 256) :
    b64Decode (b64Encode b) = b := by
  unfold b64Decode b64Encode
  rw [filterMap_b64CharVal_map _ (encodeGroups_lt64 b h)]
  exact decodeGroups_encodeGroups b h

/-! ### Errors (`src/output/errors.ts`) -/

/-- Stable error codes of the subsystem (`ErrorCodes` in the source). -/
inductive ErrorCode where
  | ERR_WALLET_EXISTS
  | ERR_WALLET_NOT_FOUND
  | ERR_WRONG_PASSWORD
  | ERR_SESSION_NOT_FOUND
  | ERR_SESSION_EXPIRED
  | ERR_SESSION_INVALID
  | ERR_WALLET_LOCKED
  | ERR_NO_TOKEN
  | ERR_INVALID_INPUT
deriving DecidableEq, Repr

/-- A thrown JavaScript error: either a typed `WalletError` (code + message)
or a plain `Error` from a library (message only).  Both are `instanceof
Error`. -/
inductive JsError where
  | wallet (code : ErrorCode) (message : String)
  | generic (message : String)
deriving DecidableEq, Repr

deriving instance DecidableEq for Except

/-- Source: `error.message`. -/
def JsError.msg : JsError → String
  | .wallet _ m => m
  | .generic m => m

/-- The error code of a failed operation, `none` on success or on a
non-`WalletError` failure. -/
def exCode {α : Type} : Except JsError α → Option ErrorCode
  | .error (.wallet c _) => some c
  | _ => none

/-- Source: `haystack.includes(needle)` on JS strings. -/
def strIncludes (hay sub : String) : Bool :=
  (List.range (hay.data.length + 1)).any fun i =>
    sub.data.isPrefixOf (hay.data.drop i)

/-! ### Crypto primitives (`src/security/encryption.ts` wraps `node:crypto`
and `argon2`; those library functions are parameters of the embedding) -/

/-- Library primitives used by `encryption.ts`, plus UTF-8 (de)coding of JS
strings and the (out-of-scope) chain address derivations used when a
keystore record is assembled.  All are deterministic functions in the
libraries; cryptographic facts about them are taken as hypotheses by the
theorems that need them. -/
structure CryptoPrims where
  /-- Source: `createHmac('sha256', key).update(data).digest()`. -/
  hmacSha256 : Bytes → Bytes → Bytes
  /-- Source: `hkdfSync('sha256', ikm, salt, info, 32)`. -/
  hkdf : Bytes → Bytes → String → Bytes
  /-- Source: `argon2.hash(password, {argon2id, salt, timeCost, memoryCost,
  parallelism, hashLength: 32, raw: true})`. -/
  argon2id : String → Bytes → Nat → Nat → Nat → Bytes
  /-- AES-256-GCM seal: plaintext, key, iv ↦ (auth tag, ciphertext). -/
  aesGcmSeal : Bytes → Bytes → Bytes → Bytes × Bytes
  /-- AES-256-GCM open: iv, auth tag, ciphertext, key ↦ plaintext, or
  `none` when the tag does not verify. -/
  aesGcmOpen : Bytes → Bytes → Bytes → Bytes → Option Bytes
  /-- Source: `Buffer.from(s, 'utf-8')`. -/
  utf8Encode : String → Bytes
  /-- Source: `buf.toString('utf-8')`. -/
  utf8Decode : Bytes → String
  /-- Source: `deriveEthereumAddress(mnemonic, 0).address` (out of scope, boundary
  only). -/
  ethAddress : String → String
  /-- Source: `deriveSolanaAddress(mnemonic, 0).address` (out of scope, boundary
  only). -/
  solAddress : String → String

/-- Source: `CipherParams` of `encryption.ts` (hex fields modeled as bytes). -/
structure CipherParams where
  algorithm : String
  iv : Bytes
  auth_tag : Bytes
  ciphertext : Bytes
deriving DecidableEq, Repr

/-- Source: `KdfParams` of `encryption.ts` (hex salt modeled as bytes). -/
structure KdfParams where
  algorithm : String
  time_cost : Nat
  memory_cost : Nat
  parallelism : Nat
  salt : Bytes
deriving DecidableEq, Repr

/-- Default Argon2id costs (`DEFAULT_KDF_PARAMS`). -/
def KDF_TIME_COST : Nat := 6
def KDF_MEMORY_COST : Nat := 65536
def KDF_PARALLELISM : Nat := 4

/-- Source: `deriveKeyFromPassword(password, salt?, params?)`: the salt (random when
absent in the source) and the cost parameters (defaults when absent) are
passed explicitly. -/
def deriveKeyFromPassword (C : CryptoPrims) (password : String) (salt : Bytes)
    (timeCost memoryCost parallelism : Nat) : Bytes × KdfParams :=
  (C.argon2id password salt timeCost memoryCost parallelism,
   { algorithm := "argon2id", time_cost := timeCost,
     memory_cost := memoryCost, parallelism := parallelism, salt := salt })

/-- Source: `encryptAesGcm(plaintext, key)`; the fresh random 96-bit nonce is passed
explicitly. -/
def encryptAesGcm (C : CryptoPrims) (plaintext key iv : Bytes) : CipherParams :=
  let sealed := C.aesGcmSeal plaintext key iv
  { algorithm := "aes-256-gcm", iv := iv, auth_tag := sealed.1,
    ciphertext := sealed.2 }

/-- The message of the error `node:crypto` throws when a GCM auth tag fails
to verify. -/
def AUTH_FAILURE_MSG : String := "Unsupported state or unable to authenticate data"

/-- Source: `decryptAesGcm(cipher, key)`: throws the library auth-failure error when
the tag does not verify. -/
def decryptAesGcm (C : CryptoPrims) (cipher : CipherParams) (key : Bytes) :
    Except JsError Bytes :=
  match C.aesGcmOpen cipher.iv cipher.auth_tag cipher.ciphertext key with
  | some plaintext => .ok plaintext
  | none => .error (.generic AUTH_FAILURE_MSG)

/-- Source: `encryptMnemonic(mnemonic, password)`: derives a key with a fresh salt
and default costs, then seals; salt and iv passed explicitly. -/
def encryptMnemonic (C : CryptoPrims) (mnemonic password : String)
    (salt iv : Bytes) : KdfParams × CipherParams :=
  let derived := deriveKeyFromPassword C password salt
    KDF_TIME_COST KDF_MEMORY_COST KDF_PARALLELISM
  (derived.2, encryptAesGcm C (C.utf8Encode mnemonic) derived.1 iv)

/-- Source: `decryptMnemonic(kdfParams, cipherParams, password)`: re-derives the key
from the stored salt and costs, opens, decodes UTF-8. -/
def decryptMnemonic (C : CryptoPrims) (kdfParams : KdfParams)
    (cipherParams : CipherParams) (password : String) : Except JsError String :=
  let derived := deriveKeyFromPassword C password kdfParams.salt
    kdfParams.time_cost kdfParams.memory_cost kdfParams.parallelism
  (decryptAesGcm C cipherParams derived.1).map C.utf8Decode

/-! ### Keystore (`src/core/keystore.ts`) -/

/-- Source: `KeystoreFile`. -/
structure KeystoreFile where
  version : Nat
  name : String
  created_at : Int
  kdf : KdfParams
  cipher : CipherParams
  addresses_ethereum : List String
  addresses_solana : List String
  derivation_ethereum : String
  derivation_solana : String
deriving DecidableEq, Repr

/-- Source: `"m/44'/60'/0'/0/{i}"`. -/
def ETH_DERIVATION_PATH : String := "m/44\x27/60\x27/0\x27/0/\x7bi\x7d"

/-- Source: `"m/44'/501'/{i}'/0'"`. -/
def SOL_DERIVATION_PATH : String := "m/44\x27/501\x27/\x7bi\x7d\x27/0\x27"

/-- The per-name keystore slot: `<keystoreDir>/<name>.json` holds at most
one record. -/
abbrev KeystoreState := Option KeystoreFile

/-- Source: `createKeystore(walletDir, name, mnemonic, password)`: existence
pre-check, then derive + seal + write.  Randomness (KDF salt, GCM iv) and
the clock are explicit. -/
def createKeystore (C : CryptoPrims) (name mnemonic password : String)
    (salt iv : Bytes) (now : Int) (st : KeystoreState) :
    KeystoreState × Except JsError KeystoreFile :=
  match st with
  | some _ =>
      (st, .error (.wallet .ERR_WALLET_EXISTS
        ("Wallet \"" ++ name ++ "\" already exists")))
  | none =>
      let enc := encryptMnemonic C mnemonic password salt iv
      let keystore : KeystoreFile :=
        { version := 1, name := name, created_at := now,
          kdf := enc.1, cipher := enc.2,
          addresses_ethereum := [C.ethAddress mnemonic],
          addresses_solana := [C.solAddress mnemonic],
          derivation_ethereum := ETH_DERIVATION_PATH,
          derivation_solana := SOL_DERIVATION_PATH }
      (some keystore, .ok keystore)

/-- Source: `readKeystore(walletDir, name)`. -/
def readKeystore (name : String) (st : KeystoreState) :
    Except JsError KeystoreFile :=
  match st with
  | none =>
      .error (.wallet .ERR_WALLET_NOT_FOUND
        ("Wallet \"" ++ name ++ "\" not found"))
  | some keystore => .ok keystore

/-- Source: `decryptKeystore(walletDir, name, password)`: reads, decrypts, and maps
an auth-tag failure (recognised by its message, as the source does) to
`ERR_WRONG_PASSWORD`.  Performs no writes, so it returns the state
unchanged. -/
def decryptKeystore (C : CryptoPrims) (name password : String)
    (st : KeystoreState) : KeystoreState × Except JsError String :=
  match readKeystore name st with
  | .error e => (st, .error e)
  | .ok keystore =>
      match decryptMnemonic C keystore.kdf keystore.cipher password with
      | .ok mnemonic => (st, .ok mnemonic)
      | .error e =>
          if strIncludes e.msg "Unsupported state" || strIncludes e.msg "auth"
          then (st, .error (.wallet .ERR_WRONG_PASSWORD "Incorrect password"))
          else (st, .error e)

/-! ### Session token engine (`src/core/session.ts`) -/

/-! The superseded `wallet-cli`-branded session module.  Its token
encoding/decoding, expiry handling, store layout and lifetime arithmetic
are identical to the current module's; its integrity tag covers only the
token-id and it additionally writes a token file, which the current module
(`Current` namespace below) does not. -/

/-- Source: `TOKEN_PREFIX = 'wlt_'`. -/
def TOKEN_PFX : String := "wlt_"
def TOKEN_ID_SIZE : Nat := 16
def TOKEN_SECRET_SIZE : Nat := 32
def HKDF_INFO : String := "wallet-cli-session-key"
/-- Source: `DEFAULT_DURATION` (seconds). -/
def DEFAULT_DURATION : Int := 3600
/-- Source: `MAX_DURATION` (seconds). -/
def MAX_DURATION : Int := 86400

/-- The persisted `SessionFile` together with the `hkdf_salt` field the
source adds at write time.  Hex-encoded string fields are modeled as bytes,
ISO timestamps as epoch milliseconds. -/
structure SessionFile where
  version : Nat
  wallet_name : String
  token_id : Bytes
  hmac : Bytes
  hkdf_salt : Bytes
  cipher : CipherParams
  created_at : Int
  expires_at : Int
deriving DecidableEq, Repr

/-- The persisted state for one wallet name in the superseded module:
`<sessionDir>/<name>.json` (the session record) and
`<sessionDir>/<name>.token` (its bearer-token convenience file); both
paths are determined by the wallet name alone. -/
structure SessionState where
  sessionFile : Option SessionFile
  tokenFile : Option (List Char)
deriving DecidableEq, Repr

/-- Source: `encodeToken(tokenId, tokenSecret)`: prefix + base64url of the
concatenation.  JS strings are modeled as `List Char`. -/
def encodeToken (tokenId tokenSecret : Bytes) : List Char :=
  TOKEN_PFX.data ++ b64Encode (tokenId ++ tokenSecret)

/-- Source: `decodeToken(token)`: checks the prefix, decodes, checks the combined
length, splits into the 16-byte id and 32-byte secret. -/
def decodeToken (token : List Char) : Except JsError (Bytes × Bytes) :=
  if TOKEN_PFX.data.isPrefixOf token then
    let combined := b64Decode (token.drop 4)
    if combined.length ≠ TOKEN_ID_SIZE + TOKEN_SECRET_SIZE then
      .error (.wallet .ERR_SESSION_INVALID "Invalid token length")
    else
      .ok (combined.take TOKEN_ID_SIZE, combined.drop TOKEN_ID_SIZE)
  else .error (.wallet .ERR_SESSION_INVALID "Invalid token format")

/-- The random values and the clock reading `createSession` consumes:
`secureRandom(16)`, `secureRandom(32)`, the HKDF salt `secureRandom(32)`,
the GCM nonce, and `new Date()`. -/
structure SessionTape where
  tokenId : Bytes
  tokenSecret : Bytes
  salt : Bytes
  iv : Bytes
  now : Int
deriving Repr

/-- Source: `createSession(walletDir, walletName, mnemonic, duration?)`.  Returns
the new persisted state for this wallet name and the bearer token.  The
written record overwrites whatever was stored before (`writeFile`). -/
def createSession (C : CryptoPrims) (walletName mnemonic : String)
    (duration : Option Int) (tape : SessionTape) (_st : SessionState) :
    SessionState × List Char :=
  let actualDuration := min (duration.getD DEFAULT_DURATION) MAX_DURATION
  let sessionKey := C.hkdf tape.tokenSecret tape.salt HKDF_INFO
  let cipher := encryptAesGcm C (C.utf8Encode mnemonic) sessionKey tape.iv
  let hmac := C.hmacSha256 tape.tokenSecret tape.tokenId
  let expiresAt := tape.now + actualDuration * 1000
  let sessionFile : SessionFile :=
    { version := 1, wallet_name := walletName, token_id := tape.tokenId,
      hmac := hmac, hkdf_salt := tape.salt, cipher := cipher,
      created_at := tape.now, expires_at := expiresAt }
  let token := encodeToken tape.tokenId tape.tokenSecret
  ({ sessionFile := some sessionFile, tokenFile := some token }, token)

/-- Source: `revokeSession(walletDir, walletName)`: deletes the session record and
the token file when present; idempotent. -/
def revokeSession (_st : SessionState) : SessionState :=
  { sessionFile := none, tokenFile := none }

/-- Source: `validateSession(walletDir, walletName, token)`: existence check, expiry
check (deleting an expired record), token decoding, token-id comparison,
HMAC comparison (key = token secret, data = token id), then HKDF + AES-GCM
open.  Returns the state after the call and the outcome. -/
def validateSession (C : CryptoPrims) (token : List Char) (now : Int)
    (st : SessionState) : SessionState × Except JsError String :=
  match st.sessionFile with
  | none =>
      (st, .error (.wallet .ERR_SESSION_NOT_FOUND "No active session found"))
  | some sessionData =>
      if now > sessionData.expires_at then
        (revokeSession st,
         .error (.wallet .ERR_SESSION_EXPIRED "Session has expired"))
      else
        match decodeToken token with
        | .error e => (st, .error e)
        | .ok (tokenId, tokenSecret) =>
            if tokenId ≠ sessionData.token_id then
              (st, .error (.wallet .ERR_SESSION_INVALID "Invalid session token"))
            else if C.hmacSha256 tokenSecret tokenId ≠ sessionData.hmac then
              (st, .error (.wallet .ERR_SESSION_INVALID "Invalid session token"))
            else
              let sessionKey := C.hkdf tokenSecret sessionData.hkdf_salt HKDF_INFO
              match decryptAesGcm C sessionData.cipher sessionKey with
              | .ok mnemonicBuf => (st, .ok (C.utf8Decode mnemonicBuf))
              | .error e => (st, .error e)

/-! ### Lockout guard (`src/security/lockout.ts`) -/

def MAX_FAILED_ATTEMPTS : Nat := 5
def BASE_DELAY_MS : Int := 1000
def LOCKOUT_DURATION_MS : Int := 900000

/-- Source: `LockoutRecord` (nullable ISO timestamps as `Option Int` ms). -/
structure LockoutRecord where
  failed_attempts : Nat
  last_failed_at : Option Int
  locked_until : Option Int
deriving DecidableEq, Repr

/-- The record `readLockoutRecord` returns when the file is absent or
unparsable. -/
def emptyLockoutRecord : LockoutRecord :=
  { failed_attempts := 0, last_failed_at := none, locked_until := none }

/-- The per-name lockout slot: `<walletDir>/lockout/<name>.json`. -/
abbrev LockoutState := Option LockoutRecord

/-- Source: `readLockoutRecord`. -/
def readLockoutRecord (st : LockoutState) : LockoutRecord :=
  st.getD emptyLockoutRecord

/-- The exponential-backoff step `checkLockout` falls through to: reject
while `now < last_failed_at + BASE_DELAY_MS * 2^(n-1)`.  (The source's
dynamic remaining-seconds message is abbreviated; the code
`ERR_WALLET_LOCKED` is what the callers and the spec rely on.) -/
def checkBackoff (now : Int) (record : LockoutRecord) :
    Except JsError LockoutRecord :=
  if record.failed_attempts > 0 then
    match record.last_failed_at with
    | some lastFailed =>
        let backoffMs : Int :=
          BASE_DELAY_MS * 2 ^ (record.failed_attempts - 1)
        if now < lastFailed + backoffMs then
          .error (.wallet .ERR_WALLET_LOCKED
            "Too many failed attempts. Please wait before retrying.")
        else .ok record
    | none => .ok record
  else .ok record

/-- Source: `checkLockout(walletDir, walletName)`: an active full lock rejects; an
expired full lock resets the record (persisting it) and falls through to
the backoff check, as does the no-lock case. -/
def checkLockout (now : Int) (st : LockoutState) :
    LockoutState × Except JsError LockoutRecord :=
  let record := readLockoutRecord st
  match record.locked_until with
  | some lockedUntil =>
      if now < lockedUntil then
        (st, .error (.wallet .ERR_WALLET_LOCKED
          "Wallet is locked due to consecutive failed attempts."))
      else
        (some emptyLockoutRecord, checkBackoff now emptyLockoutRecord)
  | none => (st, checkBackoff now record)

/-- Source: `recordFailedAttempt(walletDir, walletName, record)`: increments the
counter, stamps the failure time, arms the full lock when the counter has
reached `MAX_FAILED_ATTEMPTS`, persists either way. -/
def recordFailedAttempt (now : Int) (record : LockoutRecord) : LockoutState :=
  let record := { record with
    failed_attempts := record.failed_attempts + 1,
    last_failed_at := some now }
  let record :=
    if record.failed_attempts ≥ MAX_FAILED_ATTEMPTS then
      { record with locked_until := some (now + LOCKOUT_DURATION_MS) }
    else record
  some record

/-- Source: `recordSuccess(walletDir, walletName)`: unconditionally deletes the
lockout record. -/
def recordSuccess (_st : LockoutState) : LockoutState := none

/-- Lockout states reachable through the guard's interface, with
`recordFailedAttempt` applied — as its callers do — to the record returned
by a successful `checkLockout` on the current state. -/
inductive LockoutReach : LockoutState → Prop where
  | init : LockoutReach none
  | check (st : LockoutState) (now : Int) :
      LockoutReach st → LockoutReach (checkLockout now st).1
  | fail (st : LockoutState) (now now' : Int) (record : LockoutRecord) :
      LockoutReach st → (checkLockout now st).2 = .ok record →
      LockoutReach (recordFailedAttempt now' record)
  | success (st : LockoutState) :
      LockoutReach st → LockoutReach (recordSuccess st)

/-! ### A concrete instantiation of the library primitives

`node:crypto`, `argon2` and the chain derivations live outside this
repository; `modelPrims` is a deterministic stand-in exposing the same
interface, used to evaluate the embedded code on concrete inputs.  Its
"sealing" tags the ciphertext with the key, so the AEAD round-trip and
authentication hypotheses of the general theorems hold for it by
computation. -/

def modelPrims : CryptoPrims where
  hmacSha256 key data := 0 :: key ++ 1 :: data
  hkdf ikm salt info := 2 :: ikm ++ 3 :: salt ++ info.data.map Char.toNat
  argon2id password salt timeCost memoryCost parallelism :=
    4 :: password.data.map Char.toNat ++ 5 :: salt
      ++ [timeCost, memoryCost, parallelism]
  aesGcmSeal plaintext key _iv := (key, plaintext)
  aesGcmOpen _iv tag ciphertext key :=
    if tag = key then some ciphertext else none
  utf8Encode s := s.data.map Char.toNat
  utf8Decode b := String.mk (b.map Char.ofNat)
  ethAddress _ := "0xmodel"
  solAddress _ := "Solmodel"

/-! ### Canonical serialization and the current session module

The current (hardened) session module computes its integrity tag over the
canonical JSON serialization of the full session object.  The serialization
is implemented concretely below, specialized to the object shapes the
module actually serializes. -/

/-- Byte strings with every entry below 256, as hex decoding produces. -/
abbrev ValidBytes (b : Bytes) : Prop := ∀ x ∈ b, x < 256

/-- The character-level escaping `JSON.stringify` applies inside a string
literal: a quote becomes backslash-quote and a backslash becomes a double
backslash (the `\uXXXX` escapes for control characters, which no field of
a session record contains, are not modeled). -/
def encChar (c : Char) : List Char :=
  if c = '"' then ['\\', '"']
  else if c = '\\' then ['\\', '\\']
  else [c]

/-- Escape a whole string, character by character. -/
def escChars : List Char → List Char
  | [] => []
  | c :: rest => encChar c ++ escChars rest

/-- Source: `JSON.stringify` of a string value: quotes around the escaped
content. -/
def jsonStr (s : String) : String :=
  "\"" ++ String.mk (escChars s.data) ++ "\""

/-- Lowercase hex digit, as `Buffer.toString('hex')` produces. -/
def hexDigit (n : Nat) : Char :=
  if n < 10 then Char.ofNat (48 + n) else Char.ofNat (87 + n)

/-- Two hex digits per byte. -/
def hexChars : Bytes → List Char
  | [] => []
  | b :: rest => hexDigit (b / 16) :: hexDigit (b % 16) :: hexChars rest

/-- Source: `Buffer.toString('hex')`. -/
def hexEncode (b : Bytes) : String := String.mk (hexChars b)

/-- The decimal digit character of `d`. -/
def digitCh (d : Nat) : Char := Char.ofNat (48 + d)

/-- Little-endian base-10 digits with explicit fuel (kernel-reducible). -/
def digitsRev (fuel n : Nat) : List Nat :=
  match fuel with
  | 0 => []
  | fuel + 1 => if n = 0 then [] else n % 10 :: digitsRev fuel (n / 10)

/-- Decimal rendering of a natural number (`JSON.stringify` of a number,
and the digit groups of an ISO timestamp). -/
def natRepr (n : Nat) : String :=
  if n = 0 then "0" else String.mk (((digitsRev (n + 1) n).map digitCh).reverse)

/-- Decimal rendering of an integer. -/
def intRepr : Int → String
  | .ofNat n => natRepr n
  | .negSucc n => "-" ++ natRepr (n + 1)

/-- Source: `Date.prototype.toISOString` is an injective rendering of the
epoch-millisecond value; it is modeled by the decimal rendering of that
value (the integrity argument uses only its determinism and
injectivity). -/
def isoString (ms : Int) : String := intRepr ms

/-- The session object the current module serializes and tags: every
persisted field except the `hmac` itself. -/
structure SessionData where
  version : Nat
  wallet_name : String
  token_id : Bytes
  hkdf_salt : Bytes
  cipher : CipherParams
  created_at : Int
  expires_at : Int
deriving DecidableEq, Repr

/-- Source: `const ... dataWithoutHmac ... = sessionData` — the stored
record minus its tag field. -/
def SessionFile.toData (r : SessionFile) : SessionData :=
  { version := r.version, wallet_name := r.wallet_name,
    token_id := r.token_id, hkdf_salt := r.hkdf_salt, cipher := r.cipher,
    created_at := r.created_at, expires_at := r.expires_at }

/-- Source: `canonicalJson` applied to a `CipherParams` object: keys in
sorted order (`algorithm`, `auth_tag`, `ciphertext`, `iv`), byte fields
hex-encoded. -/
def cipherJson (c : CipherParams) : String :=
  "\x7b\"algorithm\":" ++ jsonStr c.algorithm
    ++ ",\"auth_tag\":" ++ jsonStr (hexEncode c.auth_tag)
    ++ ",\"ciphertext\":" ++ jsonStr (hexEncode c.ciphertext)
    ++ ",\"iv\":" ++ jsonStr (hexEncode c.iv) ++ "\x7d"

/-- Source: `canonicalJson(sessionData)` — recursively key-sorted,
delimiter-stable JSON of the session object (keys `cipher`, `created_at`,
`expires_at`, `hkdf_salt`, `token_id`, `version`, `wallet_name`), with
hex-encoded byte fields and ISO timestamps. -/
def canonicalJson (d : SessionData) : String :=
  "\x7b\"cipher\":" ++ cipherJson d.cipher
    ++ ",\"created_at\":" ++ jsonStr (isoString d.created_at)
    ++ ",\"expires_at\":" ++ jsonStr (isoString d.expires_at)
    ++ ",\"hkdf_salt\":" ++ jsonStr (hexEncode d.hkdf_salt)
    ++ ",\"token_id\":" ++ jsonStr (hexEncode d.token_id)
    ++ ",\"version\":" ++ natRepr d.version
    ++ ",\"wallet_name\":" ++ jsonStr d.wallet_name ++ "\x7d"

/-- Hex-validity of every hex-encoded field of the serialized object. -/
abbrev SessionData.HexValid (d : SessionData) : Prop :=
  ValidBytes d.token_id ∧ ValidBytes d.hkdf_salt ∧ ValidBytes d.cipher.iv ∧
    ValidBytes d.cipher.auth_tag ∧ ValidBytes d.cipher.ciphertext

/-- A change to exactly one leaf field of the serialized session object. -/
abbrev oneLeafChange (d d' : SessionData) : Prop :=
  (d' = { d with version := d'.version } ∧ d'.version ≠ d.version) ∨
  (d' = { d with wallet_name := d'.wallet_name } ∧
    d'.wallet_name ≠ d.wallet_name) ∨
  (d' = { d with token_id := d'.token_id } ∧ d'.token_id ≠ d.token_id) ∨
  (d' = { d with hkdf_salt := d'.hkdf_salt } ∧
    d'.hkdf_salt ≠ d.hkdf_salt) ∨
  (d' = { d with created_at := d'.created_at } ∧
    d'.created_at ≠ d.created_at) ∨
  (d' = { d with expires_at := d'.expires_at } ∧
    d'.expires_at ≠ d.expires_at) ∨
  (d' = { d with cipher := { d.cipher with algorithm := d'.cipher.algorithm } } ∧
    d'.cipher.algorithm ≠ d.cipher.algorithm) ∨
  (d' = { d with cipher := { d.cipher with auth_tag := d'.cipher.auth_tag } } ∧
    d'.cipher.auth_tag ≠ d.cipher.auth_tag) ∨
  (d' = { d with cipher := { d.cipher with ciphertext := d'.cipher.ciphertext } } ∧
    d'.cipher.ciphertext ≠ d.cipher.ciphertext) ∨
  (d' = { d with cipher := { d.cipher with iv := d'.cipher.iv } } ∧
    d'.cipher.iv ≠ d.cipher.iv)

/-- A single-field tamper of a persisted session record: either the tag
field changed (data unchanged), or exactly one leaf of the tagged data
changed (tag unchanged). -/
abbrev oneFieldTamper (r r' : SessionFile) : Prop :=
  (r'.toData = r.toData ∧ r'.hmac ≠ r.hmac) ∨
  (r'.hmac = r.hmac ∧ oneLeafChange r.toData r'.toData)

namespace Current

/-- Source: `HKDF_INFO` of the current session module. -/
def HKDF_INFO : String := "agent-wallet-cli-session-key"

/-- The persisted state for one wallet name in the current session module:
only `<sessionDir>/<name>.json`; no token file exists. -/
abbrev SessionState := Option SessionFile

/-- Source: `createSession` of the current session module: HKDF-derived
session key, AES-GCM-sealed mnemonic, and an HMAC keyed by the
token-secret over the canonical JSON of the full session object (all
fields except the tag).  Returns the new state and the bearer token; no
token file is written. -/
def createSession (C : CryptoPrims) (walletName mnemonic : String)
    (duration : Option Int) (tape : SessionTape) (_st : SessionState) :
    SessionState × List Char :=
  let actualDuration := min (duration.getD DEFAULT_DURATION) MAX_DURATION
  let sessionKey := C.hkdf tape.tokenSecret tape.salt HKDF_INFO
  let cipher := encryptAesGcm C (C.utf8Encode mnemonic) sessionKey tape.iv
  let expiresAt := tape.now + actualDuration * 1000
  let sessionData : SessionData :=
    { version := 1, wallet_name := walletName, token_id := tape.tokenId,
      hkdf_salt := tape.salt, cipher := cipher,
      created_at := tape.now, expires_at := expiresAt }
  let hmac := C.hmacSha256 tape.tokenSecret
    (C.utf8Encode (canonicalJson sessionData))
  let sessionFile : SessionFile :=
    { version := 1, wallet_name := walletName, token_id := tape.tokenId,
      hmac := hmac, hkdf_salt := tape.salt, cipher := cipher,
      created_at := tape.now, expires_at := expiresAt }
  (some sessionFile, encodeToken tape.tokenId tape.tokenSecret)

/-- Source: `revokeSession` of the current module: deletes the session
file; idempotent. -/
def revokeSession (_st : SessionState) : SessionState := none

/-- Source: `validateSession` of the current module: existence check,
expiry check (deleting an expired record), token decoding, token-id
comparison, HMAC over the canonical JSON of all stored fields except the
tag, then HKDF + AES-GCM open. -/
def validateSession (C : CryptoPrims) (token : List Char) (now : Int)
    (st : SessionState) : SessionState × Except JsError String :=
  match st with
  | none =>
      (st, .error (.wallet .ERR_SESSION_NOT_FOUND "No active session found"))
  | some sessionData =>
      if now > sessionData.expires_at then
        (revokeSession st,
         .error (.wallet .ERR_SESSION_EXPIRED "Session has expired"))
      else
        match decodeToken token with
        | .error e => (st, .error e)
        | .ok (tokenId, tokenSecret) =>
            if tokenId ≠ sessionData.token_id then
              (st, .error (.wallet .ERR_SESSION_INVALID "Invalid session token"))
            else if C.hmacSha256 tokenSecret
                (C.utf8Encode (canonicalJson sessionData.toData))
                ≠ sessionData.hmac then
              (st, .error (.wallet .ERR_SESSION_INVALID "Invalid session token"))
            else
              let sessionKey := C.hkdf tokenSecret sessionData.hkdf_salt HKDF_INFO
              match decryptAesGcm C sessionData.cipher sessionKey with
              | .ok mnemonicBuf => (st, .ok (C.utf8Decode mnemonicBuf))
              | .error e => (st, .error e)

end Current

/-! ### Helper lemmas -/

theorem checkBackoff_ok {now : Int} {r r' : LockoutRecord}
    (h : checkBackoff now r = .ok r') : r' = r := by
  unfold checkBackoff at h
  split at h
  · split at h
    · simp only [] at h
      split at h
      · exact absurd h (by simp)
      · cases h; rfl
    · cases h; rfl
  · cases h; rfl

theorem decodeToken_encodeToken (tokenId tokenSecret : Bytes)
    (hid : tokenId.length = 16) (hsec : tokenSecret.length = 32)
    (hbytes : ∀ x ∈ tokenId ++ tokenSecret, x < 256) :
    decodeToken (encodeToken tokenId tokenSecret) = .ok (tokenId, tokenSecret) := by
  unfold decodeToken encodeToken
  have hpre : TOKEN_PFX.data.isPrefixOf
      (TOKEN_PFX.data ++ b64Encode (tokenId ++ tokenSecret)) = true := by
    rw [List.isPrefixOf_iff_prefix]; exact List.prefix_append _ _
  have hlen4 : TOKEN_PFX.data.length = 4 := rfl
  have hdrop : (TOKEN_PFX.data ++ b64Encode (tokenId ++ tokenSecret)).drop 4 =
      b64Encode (tokenId ++ tokenSecret) := by
    rw [← hlen4, List.drop_left]
  have hb64 : b64Decode (b64Encode (tokenId ++ tokenSecret)) =
      tokenId ++ tokenSecret := b64Decode_b64Encode _ hbytes
  have hclen : (tokenId ++ tokenSecret).length = TOKEN_ID_SIZE + TOKEN_SECRET_SIZE := by
    simp [List.length_append, hid, hsec, TOKEN_ID_SIZE, TOKEN_SECRET_SIZE]
  have htake : (tokenId ++ tokenSecret).take TOKEN_ID_SIZE = tokenId := by
    rw [show TOKEN_ID_SIZE = tokenId.length from (TOKEN_ID_SIZE.eq_1 ▸ hid.symm),
      List.take_left]
  have hdrop16 : (tokenId ++ tokenSecret).drop TOKEN_ID_SIZE = tokenSecret := by
    rw [show TOKEN_ID_SIZE = tokenId.length from (TOKEN_ID_SIZE.eq_1 ▸ hid.symm),
      List.drop_left]
  simp [hpre, hdrop, hb64, hclen, htake, hdrop16]

/-! ### Claims -/

/-- C9: for every `createSession` call, the persisted `expires_at` equals
`created_at` plus `min(requested duration, 86400 s)` when a duration is
specified and `created_at + 3600 s` when it is unspecified, with
`created_at` and `expires_at` taken from the same clock reading
(`tape.now`). -/
theorem c9_session_lifetime (C : CryptoPrims) (walletName mnemonic : String)
    (duration : Option Int) (tape : SessionTape) (st : SessionState) :
    ∀ r : SessionFile,
      (createSession C walletName mnemonic duration tape st).1.sessionFile
        = some r →
      r.created_at = tape.now ∧
      (∀ d, duration = some d →
        r.expires_at = r.created_at + min d MAX_DURATION * 1000) ∧
      (duration = none →
        r.expires_at = r.created_at + DEFAULT_DURATION * 1000) := by
  intro r hr
  simp only [createSession, Option.some.injEq] at hr
  subst hr
  refine ⟨rfl, ?_, ?_⟩
  · rintro d rfl
    simp [Option.getD]
  · rintro rfl
    simp [Option.getD, min_def, DEFAULT_DURATION, MAX_DURATION]

/-- C9 witness: a concrete issuance with a requested duration of 100000 s
(clamped to 24 h) and one with no duration (defaulted to 1 h). -/
theorem c9_session_lifetime_witness :
    ((createSession modelPrims "w" "m" (some 100000)
        ⟨List.replicate 16 7, List.replicate 32 9, List.replicate 32 2,
         List.replicate 12 3, 5000⟩
        ⟨none, none⟩).1.sessionFile.map SessionFile.expires_at
      = some (5000 + 86400 * 1000)) ∧
    ((createSession modelPrims "w" "m" none
        ⟨List.replicate 16 7, List.replicate 32 9, List.replicate 32 2,
         List.replicate 12 3, 5000⟩
        ⟨none, none⟩).1.sessionFile.map SessionFile.expires_at
      = some (5000 + 3600 * 1000)) := by
  constructor
  · cases hsf : (createSession modelPrims "w" "m" (some 100000)
        ⟨List.replicate 16 7, List.replicate 32 9, List.replicate 32 2,
         List.replicate 12 3, 5000⟩ ⟨none, none⟩).1.sessionFile with
    | none => exact absurd hsf (by simp [createSession])
    | some r =>
      have h := c9_session_lifetime modelPrims "w" "m" (some 100000)
        ⟨List.replicate 16 7, List.replicate 32 9, List.replicate 32 2,
         List.replicate 12 3, 5000⟩ ⟨none, none⟩ r hsf
      have h2 := h.2.1 100000 rfl
      simp only [Option.map_some']
      rw [h2, h.1]
      norm_num [MAX_DURATION, min_def]
  · cases hsf : (createSession modelPrims "w" "m" none
        ⟨List.replicate 16 7, List.replicate 32 9, List.replicate 32 2,
         List.replicate 12 3, 5000⟩ ⟨none, none⟩).1.sessionFile with
    | none => exact absurd hsf (by simp [createSession])
    | some r =>
      have h := c9_session_lifetime modelPrims "w" "m" none
        ⟨List.replicate 16 7, List.replicate 32 9, List.replicate 32 2,
         List.replicate 12 3, 5000⟩ ⟨none, none⟩ r hsf
      have h2 := h.2.2 rfl
      simp only [Option.map_some']
      rw [h2, h.1]
      norm_num [DEFAULT_DURATION]

/-- C4: when the stored record's `expires_at` is strictly in the past,
`validateSession` deletes the persisted session record (and token file) and
fails with `ERR_SESSION_EXPIRED`; and that deletion is the only case in
which a `validateSession` call changes the persisted state — every other
outcome, success or failure, leaves the state untouched. -/
theorem c4_expiry_self_enforcement (C : CryptoPrims) (token : List Char)
    (now : Int) (st : SessionState) :
    (∀ r, st.sessionFile = some r → now > r.expires_at →
       validateSession C token now st =
         ({ sessionFile := none, tokenFile := none },
          .error (.wallet .ERR_SESSION_EXPIRED "Session has expired"))) ∧
    (∀ st' res, validateSession C token now st = (st', res) →
       st' = st ∨
       (st' = { sessionFile := none, tokenFile := none } ∧
        exCode res = some .ERR_SESSION_EXPIRED)) := by
  constructor
  · intro r hr hexp
    simp [validateSession, hr, hexp, revokeSession]
  · intro st' res hval
    unfold validateSession at hval
    split at hval
    · cases hval; exact Or.inl rfl
    · split at hval
      · cases hval; exact Or.inr ⟨rfl, rfl⟩
      · split at hval
        · cases hval; exact Or.inl rfl
        · split at hval
          · cases hval; exact Or.inl rfl
          · split at hval
            · cases hval; exact Or.inl rfl
            · simp only [] at hval
              split at hval
              · cases hval; exact Or.inl rfl
              · cases hval; exact Or.inl rfl

/-- C4 witness: a concrete expired session is deleted and reported
expired. -/
theorem c4_expiry_self_enforcement_witness :
    validateSession modelPrims "wlt_AAAA".data 2000
      { sessionFile := some
          { version := 1, wallet_name := "w", token_id := List.replicate 16 7,
            hmac := [0], hkdf_salt := [1],
            cipher := { algorithm := "aes-256-gcm", iv := [2], auth_tag := [3],
                        ciphertext := [4] },
            created_at := 0, expires_at := 1000 },
        tokenFile := none } =
      ({ sessionFile := none, tokenFile := none },
       .error (.wallet .ERR_SESSION_EXPIRED "Session has expired")) := by
  exact (c4_expiry_self_enforcement modelPrims "wlt_AAAA".data 2000 _).1 _ rfl
    (by norm_num)

/-- C10: the session record path is keyed by the wallet name alone, so a new
`createSession` overwrites whatever session state was previously stored for
that name (the resulting state does not depend on the prior state at all),
the stored `token_id` is the newly drawn one, and a previously issued token
whose token-id differs from the newly stored one is thereafter rejected by
`validateSession` with `ERR_SESSION_INVALID` (as long as the new record has
not itself expired). -/
theorem c10_single_session_per_wallet (C : CryptoPrims)
    (walletName mnemonic : String) (duration : Option Int) (tape : SessionTape)
    (st₀ st₁ : SessionState) (oldId oldSecret : Bytes) (now : Int)
    (hidlen : oldId.length = 16) (hseclen : oldSecret.length = 32)
    (hbytes : ∀ x ∈ oldId ++ oldSecret, x < 256)
    (hneq : oldId ≠ tape.tokenId)
    (hnow : now ≤ tape.now + min (duration.getD DEFAULT_DURATION) MAX_DURATION * 1000) :
    (createSession C walletName mnemonic duration tape st₀).1 =
      (createSession C walletName mnemonic duration tape st₁).1 ∧
    (∀ r, (createSession C walletName mnemonic duration tape st₀).1.sessionFile
        = some r → r.token_id = tape.tokenId) ∧
    (validateSession C (encodeToken oldId oldSecret) now
        (createSession C walletName mnemonic duration tape st₀).1).2 =
      .error (.wallet .ERR_SESSION_INVALID "Invalid session token") := by
  refine ⟨rfl, ?_, ?_⟩
  · intro r hr
    simp only [createSession, Option.some.injEq] at hr
    subst hr
    rfl
  · have hdec := decodeToken_encodeToken oldId oldSecret hidlen hseclen hbytes
    simp only [createSession, validateSession]
    rw [if_neg (by simpa using hnow), hdec]
    simp [hneq]

/-- C10 witness: issuing over an existing session stores the new token-id,
and the previous token (different id) is rejected as invalid. -/
theorem c10_single_session_per_wallet_witness :
    (validateSession modelPrims (encodeToken (List.replicate 16 1) (List.replicate 32 2)) 0
        (createSession modelPrims "w" "m" none
          ⟨List.replicate 16 7, List.replicate 32 9, List.replicate 32 2,
           List.replicate 12 3, 0⟩
          { sessionFile := none, tokenFile := none }).1).2 =
      .error (.wallet .ERR_SESSION_INVALID "Invalid session token") := by
  exact (c10_single_session_per_wallet modelPrims "w" "m" none
    ⟨List.replicate 16 7, List.replicate 32 9, List.replicate 32 2,
     List.replicate 12 3, 0⟩
    { sessionFile := none, tokenFile := none }
    { sessionFile := none, tokenFile := none }
    (List.replicate 16 1) (List.replicate 32 2) 0
    (by decide) (by decide) (by decide) (by decide) (by decide)).2.2

/-- C3 counterexample: with the session record absent, a malformed token
(wrong prefix) does NOT fail with `ERR_SESSION_INVALID` — `validateSession`
checks the store first and fails with `ERR_SESSION_NOT_FOUND`, so the
claimed "for every state of the session store" is false. -/
theorem c3_counterexample :
    exCode (validateSession modelPrims "bad".data 0
        { sessionFile := none, tokenFile := none }).2 =
      some .ERR_SESSION_NOT_FOUND ∧
    exCode (validateSession modelPrims "bad".data 0
        { sessionFile := none, tokenFile := none }).2 ≠
      some .ERR_SESSION_INVALID := by
  constructor <;> decide

/-- C3 amended: when a session record is present and unexpired, a token that
is malformed (wrong prefix) or whose decoded payload is not 16 + 32 bytes
long fails with `ERR_SESSION_INVALID` (leaving the state unchanged); the
record's existence and its expiry are checked before the token is decoded,
so with an absent record the outcome is `ERR_SESSION_NOT_FOUND` and with an
expired one `ERR_SESSION_EXPIRED`, whatever the token. -/
theorem c3_malformed_token (C : CryptoPrims) (token : List Char) (now : Int)
    (st : SessionState) (r : SessionFile)
    (hf : st.sessionFile = some r) (hexp : ¬ now > r.expires_at)
    (hbad : TOKEN_PFX.data.isPrefixOf token = false ∨
            (b64Decode (token.drop 4)).length ≠ TOKEN_ID_SIZE + TOKEN_SECRET_SIZE) :
    exCode (validateSession C token now st).2 = some .ERR_SESSION_INVALID ∧
    (validateSession C token now st).1 = st := by
  have hdec : ∃ m, decodeToken token = .error (.wallet .ERR_SESSION_INVALID m) := by
    unfold decodeToken
    rcases hbad with hpre | hlen
    · rw [hpre]
      exact ⟨_, rfl⟩
    · by_cases hpre : TOKEN_PFX.data.isPrefixOf token
      · rw [if_pos hpre, if_pos hlen]
        exact ⟨_, rfl⟩
      · rw [if_neg hpre]
        exact ⟨_, rfl⟩
  obtain ⟨m, hm⟩ := hdec
  simp [validateSession, hf, hexp, hm, exCode]

/-- C3 amended witness: with a live record, a wrong-prefix token and a
wrong-length token both yield `ERR_SESSION_INVALID`. -/
theorem c3_malformed_token_witness :
    exCode (validateSession modelPrims "xyz".data 0
        { sessionFile := some
            { version := 1, wallet_name := "w", token_id := List.replicate 16 7,
              hmac := [0], hkdf_salt := [1],
              cipher := { algorithm := "aes-256-gcm", iv := [2], auth_tag := [3],
                          ciphertext := [4] },
              created_at := 0, expires_at := 1000 },
          tokenFile := none }).2 = some .ERR_SESSION_INVALID ∧
    exCode (validateSession modelPrims "wlt_AAAA".data 0
        { sessionFile := some
            { version := 1, wallet_name := "w", token_id := List.replicate 16 7,
              hmac := [0], hkdf_salt := [1],
              cipher := { algorithm := "aes-256-gcm", iv := [2], auth_tag := [3],
                          ciphertext := [4] },
              created_at := 0, expires_at := 1000 },
          tokenFile := none }).2 = some .ERR_SESSION_INVALID := by
  constructor
  · exact (c3_malformed_token modelPrims "xyz".data 0 _ _ rfl (by norm_num)
      (Or.inl (by decide))).1
  · exact (c3_malformed_token modelPrims "wlt_AAAA".data 0 _ _ rfl (by norm_num)
      (Or.inr (by decide))).1

/-- C5: for a keystore record created with password `pw`, decrypting with a
different password `q` fails with `ERR_WRONG_PASSWORD` — derived from the
AEAD auth-tag failure (whose message the source matches on) and nothing
else — and the stored record is unchanged by the failed attempt; with no
record stored the outcome is `ERR_WALLET_NOT_FOUND`.  The cryptographic
facts that distinct passwords derive distinct Argon2id keys and that
AES-GCM opening fails under any key other than the sealing key are
hypotheses. -/
theorem c5_wrong_password (C : CryptoPrims) (name mnemonic pw q : String)
    (salt iv : Bytes) (now : Int)
    (hq : q ≠ pw)
    (hkdfneq :
      C.argon2id q salt KDF_TIME_COST KDF_MEMORY_COST KDF_PARALLELISM ≠
      C.argon2id pw salt KDF_TIME_COST KDF_MEMORY_COST KDF_PARALLELISM)
    (hauth : ∀ key,
      key ≠ C.argon2id pw salt KDF_TIME_COST KDF_MEMORY_COST KDF_PARALLELISM →
      C.aesGcmOpen iv
        (C.aesGcmSeal (C.utf8Encode mnemonic)
          (C.argon2id pw salt KDF_TIME_COST KDF_MEMORY_COST KDF_PARALLELISM) iv).1
        (C.aesGcmSeal (C.utf8Encode mnemonic)
          (C.argon2id pw salt KDF_TIME_COST KDF_MEMORY_COST KDF_PARALLELISM) iv).2
        key = none) :
    decryptKeystore C name q
        (createKeystore C name mnemonic pw salt iv now none).1 =
      ((createKeystore C name mnemonic pw salt iv now none).1,
       .error (.wallet .ERR_WRONG_PASSWORD "Incorrect password")) ∧
    decryptKeystore C name q none =
      (none, .error (.wallet .ERR_WALLET_NOT_FOUND
        ("Wallet \"" ++ name ++ "\" not found"))) := by
  constructor
  · have hopen := hauth
      (C.argon2id q salt KDF_TIME_COST KDF_MEMORY_COST KDF_PARALLELISM) hkdfneq
    simp only [createKeystore, decryptKeystore, readKeystore, encryptMnemonic,
      deriveKeyFromPassword, decryptMnemonic, decryptAesGcm, encryptAesGcm]
    rw [hopen]
    have hmsg : (strIncludes (JsError.generic AUTH_FAILURE_MSG).msg
        "Unsupported state" ||
        strIncludes (JsError.generic AUTH_FAILURE_MSG).msg "auth") = true := by
      decide
    simp [hmsg, Except.map]
  · simp [decryptKeystore, readKeystore]

/-- C5 witness: a concrete wrong-password attempt against `modelPrims`. -/
theorem c5_wrong_password_witness :
    decryptKeystore modelPrims "w" "b"
        (createKeystore modelPrims "w" "m" "a" [1] [2] 0 none).1 =
      ((createKeystore modelPrims "w" "m" "a" [1] [2] 0 none).1,
       .error (.wallet .ERR_WRONG_PASSWORD "Incorrect password")) ∧
    decryptKeystore modelPrims "w" "b" none =
      (none, .error (.wallet .ERR_WALLET_NOT_FOUND "Wallet \"w\" not found")) := by
  exact c5_wrong_password modelPrims "w" "m" "a" "b" [1] [2] 0
    (by decide) (by decide)
    (fun key hk => by
      simp only [modelPrims]
      rw [if_neg (fun h => hk h.symm)])

/-- C8: keystore round-trip — creating a keystore from a mnemonic and a
password and decrypting it with the same password returns the original
mnemonic.  The AEAD round-trip under the same key and UTF-8 round-trip are
hypotheses on the library primitives. -/
theorem c8_keystore_roundtrip (C : CryptoPrims) (name mnemonic pw : String)
    (salt iv : Bytes) (now : Int)
    (hopen :
      C.aesGcmOpen iv
        (C.aesGcmSeal (C.utf8Encode mnemonic)
          (C.argon2id pw salt KDF_TIME_COST KDF_MEMORY_COST KDF_PARALLELISM) iv).1
        (C.aesGcmSeal (C.utf8Encode mnemonic)
          (C.argon2id pw salt KDF_TIME_COST KDF_MEMORY_COST KDF_PARALLELISM) iv).2
        (C.argon2id pw salt KDF_TIME_COST KDF_MEMORY_COST KDF_PARALLELISM) =
      some (C.utf8Encode mnemonic))
    (hutf8 : C.utf8Decode (C.utf8Encode mnemonic) = mnemonic) :
    decryptKeystore C name pw
        (createKeystore C name mnemonic pw salt iv now none).1 =
      ((createKeystore C name mnemonic pw salt iv now none).1, .ok mnemonic) := by
  simp only [createKeystore, decryptKeystore, readKeystore, encryptMnemonic,
    deriveKeyFromPassword, decryptMnemonic, decryptAesGcm, encryptAesGcm]
  rw [hopen]
  simp [Except.map, hutf8]

/-- C8 witness: a concrete round-trip through `modelPrims`. -/
theorem c8_keystore_roundtrip_witness :
    decryptKeystore modelPrims "w" "a"
        (createKeystore modelPrims "w" "my words" "a" [1] [2] 0 none).1 =
      ((createKeystore modelPrims "w" "my words" "a" [1] [2] 0 none).1,
       .ok "my words") := by
  exact c8_keystore_roundtrip modelPrims "w" "my words" "a" [1] [2] 0
    (by decide) (by decide)

theorem checkLockout_ok_locked_until {now : Int} {st : LockoutState}
    {record : LockoutRecord} (h : (checkLockout now st).2 = .ok record) :
    record.locked_until = none := by
  simp only [checkLockout] at h
  split at h
  · split at h
    · exact absurd h (by simp)
    · have h' : checkBackoff now emptyLockoutRecord = .ok record := h
      rw [checkBackoff_ok h']
      rfl
  · rename_i heq
    have h' : checkBackoff now (readLockoutRecord st) = .ok record := h
    rw [checkBackoff_ok h']
    exact heq

/-- C6: `recordFailedAttempt` increments the counter by exactly one, stamps
the failure time, and — on the lock-free records its callers feed it (those
returned by `checkLockout`) — arms the 15-minute lock exactly when the new
counter has reached the threshold of 5, persisting either way;
`recordSuccess` deletes the lockout record from any prior state; and in
every lockout state reachable through the guard's interface, a set
`locked_until` implies the counter is at least 5. -/
theorem c6_lockout_state_machine :
    (∀ (now : Int) (record : LockoutRecord) (r' : LockoutRecord),
       recordFailedAttempt now record = some r' →
       r'.failed_attempts = record.failed_attempts + 1 ∧
       r'.last_failed_at = some now ∧
       (record.locked_until = none →
         (r'.locked_until = some (now + LOCKOUT_DURATION_MS) ↔
          record.failed_attempts + 1 ≥ MAX_FAILED_ATTEMPTS))) ∧
    (∀ st : LockoutState, recordSuccess st = none) ∧
    (∀ st : LockoutState, LockoutReach st → ∀ r, st = some r →
       r.locked_until ≠ none → r.failed_attempts ≥ MAX_FAILED_ATTEMPTS) := by
  refine ⟨?_, fun _ => rfl, ?_⟩
  · intro now record r' h
    simp only [recordFailedAttempt, Option.some.injEq] at h
    by_cases hth : record.failed_attempts + 1 ≥ MAX_FAILED_ATTEMPTS
    · rw [if_pos hth] at h
      cases h
      refine ⟨rfl, rfl, fun _ => ⟨fun _ => hth, fun _ => rfl⟩⟩
    · rw [if_neg hth] at h
      cases h
      refine ⟨rfl, rfl, fun hnone => ⟨fun hsome => ?_, fun h5 => absurd h5 hth⟩⟩
      rw [hnone] at hsome
      cases hsome
  · intro st hreach
    induction hreach with
    | init => intro r hr; cases hr
    | check st now _ ih =>
        simp only [checkLockout]
        split
        · split
          · exact ih
          · intro r hr hlock
            cases hr
            cases hlock rfl
        · exact ih
    | fail st now now' record _ hok _ih =>
        intro r hr hlock
        have hnone := checkLockout_ok_locked_until hok
        simp only [recordFailedAttempt, Option.some.injEq] at hr
        by_cases hth : record.failed_attempts + 1 ≥ MAX_FAILED_ATTEMPTS
        · rw [if_pos hth] at hr
          cases hr
          exact hth
        · rw [if_neg hth] at hr
          cases hr
          exact absurd (by simpa using hnone) hlock
    | success st _ _ih => intro r hr; cases hr

/-- C6 witness: the fifth failure arms the 15-minute lock; a success deletes
the record. -/
theorem c6_lockout_state_machine_witness :
    recordFailedAttempt 5 ⟨4, some 0, none⟩ = some ⟨5, some 5, some 900005⟩ ∧
    recordSuccess (some ⟨3, some 0, none⟩) = none := by
  have h := c6_lockout_state_machine
  have h1 := h.1 5 ⟨4, some 0, none⟩ ⟨5, some 5, some 900005⟩ (by decide)
  have harm := (h1.2.2 rfl).mpr (by decide)
  exact ⟨by decide, h.2.1 _⟩

/-- C7: for a lockout record with `1 ≤ n < 5`, no full lock set, and a
recorded last-failure time, `checkLockout` fails with the locked-out outcome
exactly when `now` is strictly before `last_failed_at + 1000·2^(n−1)` ms,
and succeeds — returning the record unchanged, without writing — at or
after that instant. -/
theorem c7_backoff_timing (now lastFailed : Int) (r : LockoutRecord)
    (h1 : 1 ≤ r.failed_attempts)
    (h5 : r.failed_attempts < MAX_FAILED_ATTEMPTS)
    (hlock : r.locked_until = none)
    (hlf : r.last_failed_at = some lastFailed) :
    (checkLockout now (some r)).1 = some r ∧
    (exCode (checkLockout now (some r)).2 = some .ERR_WALLET_LOCKED ↔
      now < lastFailed + BASE_DELAY_MS * 2 ^ (r.failed_attempts - 1)) ∧
    (lastFailed + BASE_DELAY_MS * 2 ^ (r.failed_attempts - 1) ≤ now →
      (checkLockout now (some r)).2 = .ok r) := by
  have hn : r.failed_attempts > 0 := h1
  have hres : checkLockout now (some r) =
      (some r,
       if now < lastFailed + BASE_DELAY_MS * 2 ^ (r.failed_attempts - 1) then
         .error (.wallet .ERR_WALLET_LOCKED
           "Too many failed attempts. Please wait before retrying.")
       else .ok r) := by
    simp only [checkLockout, checkBackoff, readLockoutRecord, Option.getD,
      hlock, hlf, if_pos hn]
  rw [hres]
  by_cases hwait : now < lastFailed + BASE_DELAY_MS * 2 ^ (r.failed_attempts - 1)
  · rw [if_pos hwait]
    exact ⟨rfl, ⟨fun _ => hwait, fun _ => rfl⟩, fun hle => absurd hwait (by omega)⟩
  · rw [if_neg hwait]
    exact ⟨rfl, ⟨fun h => by simp [exCode] at h, fun hlt => absurd hlt hwait⟩,
      fun _ => rfl⟩

/-- C7 witness: with two recorded failures (backoff 2 s), a check at 1.5 s
is rejected and a check at 2 s succeeds. -/
theorem c7_backoff_timing_witness :
    exCode (checkLockout 1500 (some ⟨2, some 0, none⟩)).2 =
      some .ERR_WALLET_LOCKED ∧
    (checkLockout 2000 (some ⟨2, some 0, none⟩)).2 = .ok ⟨2, some 0, none⟩ := by
  constructor
  · exact ((c7_backoff_timing 1500 0 ⟨2, some 0, none⟩ (by decide) (by decide)
      rfl rfl).2.1).2 (by decide)
  · exact (c7_backoff_timing 2000 0 ⟨2, some 0, none⟩ (by decide) (by decide)
      rfl rfl).2.2 (by decide)

/-! ### Injectivity of the canonical serialization -/

theorem stringMk_data (l : List Char) : (String.mk l).data = l := rfl

theorem string_data_inj {s t : String} (h : s.data = t.data) : s = t := by
  cases s; cases t
  exact congrArg String.mk h

theorem encChar_ne_nil (c : Char) : encChar c ≠ [] := by
  unfold encChar
  split
  · simp
  · split <;> simp

theorem encChar_classify (c : Char) :
    (c ≠ '"' ∧ c ≠ '\\' ∧ encChar c = [c]) ∨
    (∃ x, encChar c = ['\\', x] ∧
      ((x = '"' ∧ c = '"') ∨ (x = '\\' ∧ c = '\\'))) := by
  unfold encChar
  split
  · rename_i h; exact Or.inr ⟨'"', rfl, Or.inl ⟨rfl, h⟩⟩
  · split
    · rename_i h; exact Or.inr ⟨'\\', rfl, Or.inr ⟨rfl, h⟩⟩
    · rename_i h1 h2; exact Or.inl ⟨h1, h2, rfl⟩

theorem escChars_inj : ∀ s t : List Char, escChars s = escChars t → s = t
  | [], [], _ => rfl
  | [], d :: t, h => by
      exfalso
      simp only [escChars] at h
      exact encChar_ne_nil d (List.append_eq_nil.mp h.symm).1
  | c :: s, [], h => by
      exfalso
      simp only [escChars] at h
      exact encChar_ne_nil c (List.append_eq_nil.mp h).1
  | c :: s, d :: t, h => by
      simp only [escChars] at h
      rcases encChar_classify c with ⟨hc1, hc2, hce⟩ | ⟨x, hce, hx⟩ <;>
        rcases encChar_classify d with ⟨hd1, hd2, hde⟩ | ⟨y, hde, hy⟩
      · rw [hce, hde] at h
        simp only [List.cons_append, List.nil_append, List.cons.injEq] at h
        rw [h.1, escChars_inj s t h.2]
      · exfalso
        rw [hce, hde] at h
        simp only [List.cons_append, List.nil_append, List.cons.injEq] at h
        exact hc2 h.1
      · exfalso
        rw [hce, hde] at h
        simp only [List.cons_append, List.nil_append, List.cons.injEq] at h
        exact hd2 h.1.symm
      · rw [hce, hde] at h
        simp only [List.cons_append, List.nil_append, List.cons.injEq] at h
        have hxy : x = y := h.2.1
        have hcd : c = d := by
          rcases hx with ⟨hx1, hx2⟩ | ⟨hx1, hx2⟩ <;>
            rcases hy with ⟨hy1, hy2⟩ | ⟨hy1, hy2⟩ <;>
            subst_eqs <;> first | rfl | exact absurd hxy (by decide)
        rw [hcd, escChars_inj s t h.2.2]

theorem hexDigit_inj16 : ∀ m < 16, ∀ n < 16, hexDigit m = hexDigit n → m = n := by
  decide

theorem hexChars_inj :
    ∀ a b : Bytes, ValidBytes a → ValidBytes b → hexChars a = hexChars b → a = b
  | [], [], _, _, _ => rfl
  | [], _ :: _, _, _, h => by simp [hexChars] at h
  | _ :: _, [], _, _, h => by simp [hexChars] at h
  | x :: a, y :: b, ha, hb, h => by
      simp only [hexChars, List.cons.injEq] at h
      obtain ⟨h1, h2, h3⟩ := h
      have hx : x < 256 := ha x (by simp)
      have hy : y < 256 := hb y (by simp)
      have e1 := hexDigit_inj16 (x / 16) (by omega) (y / 16) (by omega) h1
      have e2 := hexDigit_inj16 (x % 16) (by omega) (y % 16) (by omega) h2
      have exy : x = y := by omega
      have etail := hexChars_inj a b (fun z hz => ha z (by simp [hz]))
        (fun z hz => hb z (by simp [hz])) h3
      rw [exy, etail]

/-- Recompose a little-endian digit list. -/
def undigits : List Nat → Nat
  | [] => 0
  | d :: rest => d + 10 * undigits rest

theorem undigits_digitsRev :
    ∀ fuel n : Nat, n ≤ fuel → undigits (digitsRev fuel n) = n
  | 0, n, h => by
      simp only [digitsRev, undigits]
      omega
  | fuel + 1, n, h => by
      simp only [digitsRev]
      by_cases hn : n = 0
      · simp [hn, undigits]
      · rw [if_neg hn]
        simp only [undigits]
        have hlt : n / 10 < n := Nat.div_lt_self (by omega) (by omega)
        rw [undigits_digitsRev fuel (n / 10) (by omega)]
        omega

theorem digitsRev_lt10 :
    ∀ fuel n : Nat, ∀ d ∈ digitsRev fuel n, d < 10
  | 0, n => by simp [digitsRev]
  | fuel + 1, n => by
      simp only [digitsRev]
      by_cases hn : n = 0
      · simp [hn]
      · rw [if_neg hn]
        intro d hd
        rcases List.mem_cons.mp hd with rfl | hmem
        · omega
        · exact digitsRev_lt10 fuel (n / 10) d hmem

theorem digitCh_inj10 : ∀ a < 10, ∀ b < 10, digitCh a = digitCh b → a = b := by
  decide

theorem mapDigitCh_inj :
    ∀ l₁ l₂ : List Nat, (∀ d ∈ l₁, d < 10) → (∀ d ∈ l₂, d < 10) →
      l₁.map digitCh = l₂.map digitCh → l₁ = l₂
  | [], [], _, _, _ => rfl
  | [], _ :: _, _, _, h => by simp at h
  | _ :: _, [], _, _, h => by simp at h
  | a :: l₁, b :: l₂, h₁, h₂, h => by
      simp only [List.map_cons, List.cons.injEq] at h
      have hab := digitCh_inj10 a (h₁ a (by simp)) b (h₂ b (by simp)) h.1
      have htail := mapDigitCh_inj l₁ l₂ (fun d hd => h₁ d (by simp [hd]))
        (fun d hd => h₂ d (by simp [hd])) h.2
      rw [hab, htail]

theorem digitCh_ne_dash : ∀ d < 10, digitCh d ≠ '-' := by decide

theorem natRepr_no_dash (n : Nat) : '-' ∉ (natRepr n).data := by
  unfold natRepr
  split
  · decide
  · rw [stringMk_data]
    intro hmem
    rw [List.mem_reverse] at hmem
    obtain ⟨d, hd, hdc⟩ := List.mem_map.mp hmem
    exact digitCh_ne_dash d (digitsRev_lt10 _ _ d hd) hdc

theorem natRepr_inj : ∀ {m n : Nat}, natRepr m = natRepr n → m = n := by
  have key : ∀ n : Nat, n ≠ 0 → natRepr n ≠ "0" := by
    intro n hn hcontra
    unfold natRepr at hcontra
    rw [if_neg hn] at hcontra
    have hd := congrArg String.data hcontra
    rw [stringMk_data] at hd
    have hmap : (digitsRev (n + 1) n).map digitCh = ['0'] := by
      have := congrArg List.reverse hd
      simpa using this
    rcases hdig : digitsRev (n + 1) n with _ | ⟨d, rest⟩
    · rw [hdig] at hmap; simp at hmap
    · rw [hdig] at hmap
      simp only [List.map_cons, List.cons.injEq] at hmap
      have hrest : rest = [] := by
        rcases rest with _ | _
        · rfl
        · simp at hmap
      have hdlt : d < 10 := digitsRev_lt10 _ _ d (by rw [hdig]; simp)
      have hd0 : d = 0 := by
        have : ∀ d < 10, digitCh d = '0' → d = 0 := by decide
        exact this d hdlt hmap.1
      have hround := undigits_digitsRev (n + 1) n (by omega)
      rw [hdig, hrest, hd0] at hround
      simp [undigits] at hround
      exact hn hround.symm
  intro m n h
  by_cases hm : m = 0 <;> by_cases hn : n = 0
  · omega
  · exact absurd ((by rw [← h, hm]; rfl : natRepr n = "0")).symm
      (fun hc => key n hn hc.symm)
  · exact absurd ((by rw [h, hn]; rfl : natRepr m = "0")).symm
      (fun hc => key m hm hc.symm)
  · unfold natRepr at h
    rw [if_neg hm, if_neg hn] at h
    have hd := congrArg String.data h
    rw [stringMk_data, stringMk_data] at hd
    have hrev := List.reverse_injective hd
    have hdig := mapDigitCh_inj _ _ (digitsRev_lt10 _ _) (digitsRev_lt10 _ _) hrev
    have h1 := undigits_digitsRev (m + 1) m (by omega)
    have h2 := undigits_digitsRev (n + 1) n (by omega)
    rw [hdig] at h1
    omega

theorem intRepr_inj : ∀ {a b : Int}, intRepr a = intRepr b → a = b
  | .ofNat m, .ofNat n, h => by
      exact congrArg Int.ofNat (natRepr_inj h)
  | .negSucc m, .negSucc n, h => by
      simp only [intRepr] at h
      have hd := congrArg String.data h
      simp only [String.data_append, List.cons_append, List.nil_append,
        List.cons.injEq, true_and] at hd
      have hmn := natRepr_inj (string_data_inj hd)
      exact congrArg Int.negSucc (by omega)
  | .ofNat m, .negSucc n, h => by
      exfalso
      simp only [intRepr] at h
      have := natRepr_no_dash m
      rw [h] at this
      apply this
      simp [String.data_append]
  | .negSucc m, .ofNat n, h => by
      exfalso
      simp only [intRepr] at h
      have := natRepr_no_dash n
      rw [← h] at this
      apply this
      simp [String.data_append]

/-- The canonical serialization separates records: changing any single leaf
field of a (hex-valid) session object changes its canonical JSON. -/
theorem canonicalJson_ne {d d' : SessionData} (hv : d.HexValid)
    (hv' : d'.HexValid) (hle : oneLeafChange d d') :
    canonicalJson d' ≠ canonicalJson d := by
  intro hEq
  have hd := congrArg String.data hEq
  rcases hle with ⟨he, hne⟩ | ⟨he, hne⟩ | ⟨he, hne⟩ | ⟨he, hne⟩ | ⟨he, hne⟩ |
    ⟨he, hne⟩ | ⟨he, hne⟩ | ⟨he, hne⟩ | ⟨he, hne⟩ | ⟨he, hne⟩
  · -- version
    have h1 : d'.cipher = d.cipher := by rw [he]
    have h2 : d'.created_at = d.created_at := by rw [he]
    have h3 : d'.expires_at = d.expires_at := by rw [he]
    have h4 : d'.hkdf_salt = d.hkdf_salt := by rw [he]
    have h5 : d'.token_id = d.token_id := by rw [he]
    have h6 : d'.wallet_name = d.wallet_name := by rw [he]
    simp only [canonicalJson, jsonStr, String.data_append, stringMk_data,
      List.append_assoc, h1, h2, h3, h4, h5, h6,
      List.append_right_inj, List.append_left_inj] at hd
    exact hne (natRepr_inj (string_data_inj hd))
  · -- wallet_name
    have h1 : d'.cipher = d.cipher := by rw [he]
    have h2 : d'.created_at = d.created_at := by rw [he]
    have h3 : d'.expires_at = d.expires_at := by rw [he]
    have h4 : d'.hkdf_salt = d.hkdf_salt := by rw [he]
    have h5 : d'.token_id = d.token_id := by rw [he]
    have h6 : d'.version = d.version := by rw [he]
    simp only [canonicalJson, jsonStr, String.data_append, stringMk_data,
      List.append_assoc, h1, h2, h3, h4, h5, h6,
      List.append_right_inj, List.append_left_inj] at hd
    exact hne (string_data_inj (escChars_inj _ _ hd))
  · -- token_id
    have h1 : d'.cipher = d.cipher := by rw [he]
    have h2 : d'.created_at = d.created_at := by rw [he]
    have h3 : d'.expires_at = d.expires_at := by rw [he]
    have h4 : d'.hkdf_salt = d.hkdf_salt := by rw [he]
    have h5 : d'.version = d.version := by rw [he]
    have h6 : d'.wallet_name = d.wallet_name := by rw [he]
    simp only [canonicalJson, jsonStr, hexEncode, String.data_append,
      stringMk_data, List.append_assoc, h1, h2, h3, h4, h5, h6,
      List.append_right_inj, List.append_left_inj] at hd
    exact hne (hexChars_inj _ _ hv'.1 hv.1 (escChars_inj _ _ hd))
  · -- hkdf_salt
    have h1 : d'.cipher = d.cipher := by rw [he]
    have h2 : d'.created_at = d.created_at := by rw [he]
    have h3 : d'.expires_at = d.expires_at := by rw [he]
    have h4 : d'.token_id = d.token_id := by rw [he]
    have h5 : d'.version = d.version := by rw [he]
    have h6 : d'.wallet_name = d.wallet_name := by rw [he]
    simp only [canonicalJson, jsonStr, hexEncode, String.data_append,
      stringMk_data, List.append_assoc, h1, h2, h3, h4, h5, h6,
      List.append_right_inj, List.append_left_inj] at hd
    exact hne (hexChars_inj _ _ hv'.2.1 hv.2.1 (escChars_inj _ _ hd))
  · -- created_at
    have h1 : d'.cipher = d.cipher := by rw [he]
    have h2 : d'.expires_at = d.expires_at := by rw [he]
    have h3 : d'.hkdf_salt = d.hkdf_salt := by rw [he]
    have h4 : d'.token_id = d.token_id := by rw [he]
    have h5 : d'.version = d.version := by rw [he]
    have h6 : d'.wallet_name = d.wallet_name := by rw [he]
    simp only [canonicalJson, jsonStr, String.data_append, stringMk_data,
      List.append_assoc, h1, h2, h3, h4, h5, h6,
      List.append_right_inj, List.append_left_inj] at hd
    exact hne (intRepr_inj (string_data_inj (escChars_inj _ _ hd)))
  · -- expires_at
    have h1 : d'.cipher = d.cipher := by rw [he]
    have h2 : d'.created_at = d.created_at := by rw [he]
    have h3 : d'.hkdf_salt = d.hkdf_salt := by rw [he]
    have h4 : d'.token_id = d.token_id := by rw [he]
    have h5 : d'.version = d.version := by rw [he]
    have h6 : d'.wallet_name = d.wallet_name := by rw [he]
    simp only [canonicalJson, jsonStr, String.data_append, stringMk_data,
      List.append_assoc, h1, h2, h3, h4, h5, h6,
      List.append_right_inj, List.append_left_inj] at hd
    exact hne (intRepr_inj (string_data_inj (escChars_inj _ _ hd)))
  · -- cipher.algorithm
    have h1 : d'.cipher.auth_tag = d.cipher.auth_tag := by rw [he]
    have h2 : d'.cipher.ciphertext = d.cipher.ciphertext := by rw [he]
    have h3 : d'.cipher.iv = d.cipher.iv := by rw [he]
    have h4 : d'.created_at = d.created_at := by rw [he]
    have h5 : d'.expires_at = d.expires_at := by rw [he]
    have h6 : d'.hkdf_salt = d.hkdf_salt := by rw [he]
    have h7 : d'.token_id = d.token_id := by rw [he]
    have h8 : d'.version = d.version := by rw [he]
    have h9 : d'.wallet_name = d.wallet_name := by rw [he]
    simp only [canonicalJson, cipherJson, jsonStr, String.data_append,
      stringMk_data, List.append_assoc, h1, h2, h3, h4, h5, h6, h7, h8, h9,
      List.append_right_inj, List.append_left_inj] at hd
    exact hne (string_data_inj (escChars_inj _ _ hd))
  · -- cipher.auth_tag
    have h1 : d'.cipher.algorithm = d.cipher.algorithm := by rw [he]
    have h2 : d'.cipher.ciphertext = d.cipher.ciphertext := by rw [he]
    have h3 : d'.cipher.iv = d.cipher.iv := by rw [he]
    have h4 : d'.created_at = d.created_at := by rw [he]
    have h5 : d'.expires_at = d.expires_at := by rw [he]
    have h6 : d'.hkdf_salt = d.hkdf_salt := by rw [he]
    have h7 : d'.token_id = d.token_id := by rw [he]
    have h8 : d'.version = d.version := by rw [he]
    have h9 : d'.wallet_name = d.wallet_name := by rw [he]
    simp only [canonicalJson, cipherJson, jsonStr, hexEncode,
      String.data_append, stringMk_data, List.append_assoc,
      h1, h2, h3, h4, h5, h6, h7, h8, h9,
      List.append_right_inj, List.append_left_inj] at hd
    exact hne (hexChars_inj _ _ hv'.2.2.2.1 hv.2.2.2.1 (escChars_inj _ _ hd))
  · -- cipher.ciphertext
    have h1 : d'.cipher.algorithm = d.cipher.algorithm := by rw [he]
    have h2 : d'.cipher.auth_tag = d.cipher.auth_tag := by rw [he]
    have h3 : d'.cipher.iv = d.cipher.iv := by rw [he]
    have h4 : d'.created_at = d.created_at := by rw [he]
    have h5 : d'.expires_at = d.expires_at := by rw [he]
    have h6 : d'.hkdf_salt = d.hkdf_salt := by rw [he]
    have h7 : d'.token_id = d.token_id := by rw [he]
    have h8 : d'.version = d.version := by rw [he]
    have h9 : d'.wallet_name = d.wallet_name := by rw [he]
    simp only [canonicalJson, cipherJson, jsonStr, hexEncode,
      String.data_append, stringMk_data, List.append_assoc,
      h1, h2, h3, h4, h5, h6, h7, h8, h9,
      List.append_right_inj, List.append_left_inj] at hd
    exact hne (hexChars_inj _ _ hv'.2.2.2.2 hv.2.2.2.2 (escChars_inj _ _ hd))
  · -- cipher.iv
    have h1 : d'.cipher.algorithm = d.cipher.algorithm := by rw [he]
    have h2 : d'.cipher.auth_tag = d.cipher.auth_tag := by rw [he]
    have h3 : d'.cipher.ciphertext = d.cipher.ciphertext := by rw [he]
    have h4 : d'.created_at = d.created_at := by rw [he]
    have h5 : d'.expires_at = d.expires_at := by rw [he]
    have h6 : d'.hkdf_salt = d.hkdf_salt := by rw [he]
    have h7 : d'.token_id = d.token_id := by rw [he]
    have h8 : d'.version = d.version := by rw [he]
    have h9 : d'.wallet_name = d.wallet_name := by rw [he]
    simp only [canonicalJson, cipherJson, jsonStr, hexEncode,
      String.data_append, stringMk_data, List.append_assoc,
      h1, h2, h3, h4, h5, h6, h7, h8, h9,
      List.append_right_inj, List.append_left_inj] at hd
    exact hne (hexChars_inj _ _ hv'.2.2.1 hv.2.2.1 (escChars_inj _ _ hd))

/-- The concrete issuance used for the C1 counterexample and witness. -/
def c1cur_tape : SessionTape :=
  { tokenId := List.replicate 16 7, tokenSecret := List.replicate 32 9,
    salt := List.replicate 32 2, iv := List.replicate 12 3, now := 0 }

/-- State and bearer token after a concrete `Current.createSession`. -/
def c1cur_created : Current.SessionState × List Char :=
  Current.createSession modelPrims "w" "m" none c1cur_tape none

/-- The concrete persisted record. -/
def c1cur_record : SessionFile :=
  c1cur_created.1.getD ⟨0, "", [], [], [], ⟨"", [], [], []⟩, 0, 0⟩

/-- The record with its HKDF salt tampered (one field changed). -/
def c1cur_tampered : SessionFile :=
  { c1cur_record with hkdf_salt := List.replicate 32 4 }

/-- The record with its `expires_at` backdated (one field changed). -/
def c1cur_backdated : SessionFile :=
  { c1cur_record with expires_at := -1 }

theorem current_validate_id_mismatch (C : CryptoPrims) {token : List Char}
    {now : Int} {r : SessionFile} {tid sec : Bytes}
    (hdec : decodeToken token = .ok (tid, sec))
    (hexp : ¬ now > r.expires_at) (hid : tid ≠ r.token_id) :
    Current.validateSession C token now (some r) =
      (some r, .error (.wallet .ERR_SESSION_INVALID "Invalid session token")) := by
  simp [Current.validateSession, hexp, hdec, hid]

theorem current_validate_tag_mismatch (C : CryptoPrims) {token : List Char}
    {now : Int} {r : SessionFile} {tid sec : Bytes}
    (hdec : decodeToken token = .ok (tid, sec))
    (hexp : ¬ now > r.expires_at) (hid : tid = r.token_id)
    (htag : C.hmacSha256 sec (C.utf8Encode (canonicalJson r.toData)) ≠ r.hmac) :
    Current.validateSession C token now (some r) =
      (some r, .error (.wallet .ERR_SESSION_INVALID "Invalid session token")) := by
  subst hid
  simp [Current.validateSession, hexp, hdec, htag]

set_option maxRecDepth 16384 in
/-- C1 counterexample: in the current session module a single-field tamper
that backdates the persisted `expires_at` to before the validation time
makes `validateSession` with the originally issued token fail with
`ERR_SESSION_EXPIRED` (deleting the record) — not `ERR_SESSION_INVALID` —
because expiry is checked before the integrity tag is recomputed.  This
refutes the claim's "every single-byte change to any field fails with the
session-invalid outcome". -/
theorem c1_counterexample_backdated_tamper :
    c1cur_created.1 = some c1cur_record ∧
    oneFieldTamper c1cur_record c1cur_backdated ∧
    Current.validateSession modelPrims c1cur_created.2 0 (some c1cur_backdated) =
      (none, .error (.wallet .ERR_SESSION_EXPIRED "Session has expired")) ∧
    exCode (Current.validateSession modelPrims c1cur_created.2 0
        (some c1cur_backdated)).2 ≠ some .ERR_SESSION_INVALID := by
  exact ⟨by decide, by decide, by decide, by decide⟩

/-- C1 (amended, current session module): the integrity tag stored by
`createSession` is the HMAC-SHA256, keyed by the token-secret, of the
canonical JSON serialization of the entire record (every persisted field
except the tag itself), and `validateSession` recomputes it the same way
over the stored record; consequently a change to any single field of the
persisted record makes validation with the originally issued token fail —
with `ERR_SESSION_INVALID` whenever the tampered record is not already
expired at validation time, and with `ERR_SESSION_EXPIRED` (deleting the
record) when the tampered `expires_at` lies strictly before the validation
time, since expiry is checked before the tag.  Collision-freedom of the
HMAC on the two serializations is a hypothesis. -/
theorem c1_session_tag_covers_record (C : CryptoPrims)
    (walletName mnemonic : String) (duration : Option Int) (tape : SessionTape)
    (st₀ : Current.SessionState) (now : Int) (r r' : SessionFile)
    (hidlen : tape.tokenId.length = 16)
    (hseclen : tape.tokenSecret.length = 32)
    (hbytes : ∀ x ∈ tape.tokenId ++ tape.tokenSecret, x < 256)
    (hr : (Current.createSession C walletName mnemonic duration tape st₀).1
      = some r)
    (htamper : oneFieldTamper r r')
    (hval : r.toData.HexValid) (hval' : r'.toData.HexValid)
    (hcoll : canonicalJson r'.toData ≠ canonicalJson r.toData →
      C.hmacSha256 tape.tokenSecret (C.utf8Encode (canonicalJson r'.toData)) ≠
        C.hmacSha256 tape.tokenSecret (C.utf8Encode (canonicalJson r.toData))) :
    r.hmac = C.hmacSha256 tape.tokenSecret
      (C.utf8Encode (canonicalJson r.toData)) ∧
    (¬ now > r'.expires_at →
      Current.validateSession C (encodeToken tape.tokenId tape.tokenSecret)
        now (some r') =
        (some r',
         .error (.wallet .ERR_SESSION_INVALID "Invalid session token"))) ∧
    (now > r'.expires_at →
      Current.validateSession C (encodeToken tape.tokenId tape.tokenSecret)
        now (some r') =
        (none, .error (.wallet .ERR_SESSION_EXPIRED "Session has expired"))) := by
  have hdec := decodeToken_encodeToken tape.tokenId tape.tokenSecret
    hidlen hseclen hbytes
  simp only [Current.createSession, Option.some.injEq] at hr
  subst hr
  refine ⟨rfl, ?_, ?_⟩
  · intro hexp2
    rcases htamper with ⟨hdata, hneq⟩ | ⟨hhm, hleaf⟩
    · have hid : tape.tokenId = r'.token_id :=
        (congrArg SessionData.token_id hdata).symm
      have htag : C.hmacSha256 tape.tokenSecret
          (C.utf8Encode (canonicalJson r'.toData)) ≠ r'.hmac := by
        rw [hdata]
        exact fun hc => hneq hc.symm
      exact current_validate_tag_mismatch C hdec hexp2 hid htag
    · by_cases hid : tape.tokenId = r'.token_id
      · have hcanon := canonicalJson_ne hval hval' hleaf
        have htag : C.hmacSha256 tape.tokenSecret
            (C.utf8Encode (canonicalJson r'.toData)) ≠ r'.hmac := by
          rw [hhm]
          exact hcoll hcanon
        exact current_validate_tag_mismatch C hdec hexp2 hid htag
      · exact current_validate_id_mismatch C hdec hexp2 hid
  · intro hexp
    simp [Current.validateSession, hexp, Current.revokeSession]

set_option maxRecDepth 16384 in
/-- C1 witness: a concrete single-field tamper of the HKDF salt on a
concrete issuance is rejected with `ERR_SESSION_INVALID`. -/
theorem c1_session_tag_covers_record_witness :
    Current.validateSession modelPrims c1cur_created.2 0 (some c1cur_tampered) =
      (some c1cur_tampered,
       .error (.wallet .ERR_SESSION_INVALID "Invalid session token")) := by
  exact (c1_session_tag_covers_record modelPrims "w" "m" none c1cur_tape none 0
    c1cur_record c1cur_tampered (by decide) (by decide) (by decide) (by decide)
    (by decide) (by decide) (by decide) (by decide)).2.1 (by decide)

/-- C2 (current session module): after every issuance the persisted state
is the session record alone — the module's state has no token file — and
the record holds only values derived from the token-secret (HKDF salt,
cipher parameters sealed under the HKDF-derived session key, integrity
tag); the raw token-secret appears only as HKDF input-key-material and as
the HMAC key, never as a stored field, as the explicit record equation
shows.  Moreover the un-persisted token-secret must be presented to get the
plaintext back: a well-formed token carrying any other secret half fails
validation with `ERR_SESSION_INVALID` (key-distinctness of the HMAC on the
stored serialization is a hypothesis). -/
theorem c2_token_secret_not_persisted (C : CryptoPrims)
    (walletName mnemonic : String) (duration : Option Int) (tape : SessionTape)
    (st₀ : Current.SessionState) (now : Int) (r : SessionFile)
    (otherId otherSecret : Bytes)
    (hidlen : otherId.length = 16) (hseclen : otherSecret.length = 32)
    (hbytes : ∀ x ∈ otherId ++ otherSecret, x < 256)
    (hsec : otherSecret ≠ tape.tokenSecret)
    (hr : (Current.createSession C walletName mnemonic duration tape st₀).1
      = some r)
    (hnow : ¬ now > r.expires_at)
    (hneq : C.hmacSha256 otherSecret (C.utf8Encode (canonicalJson r.toData)) ≠
      C.hmacSha256 tape.tokenSecret (C.utf8Encode (canonicalJson r.toData))) :
    (∀ st₁ : Current.SessionState,
      (Current.createSession C walletName mnemonic duration tape st₁).1 =
        some { version := 1, wallet_name := walletName,
               token_id := tape.tokenId,
               hmac := C.hmacSha256 tape.tokenSecret (C.utf8Encode
                 (canonicalJson
                   { version := 1, wallet_name := walletName,
                     token_id := tape.tokenId, hkdf_salt := tape.salt,
                     cipher := encryptAesGcm C (C.utf8Encode mnemonic)
                       (C.hkdf tape.tokenSecret tape.salt Current.HKDF_INFO)
                       tape.iv,
                     created_at := tape.now,
                     expires_at := tape.now +
                       min (duration.getD DEFAULT_DURATION) MAX_DURATION
                         * 1000 })),
               hkdf_salt := tape.salt,
               cipher := encryptAesGcm C (C.utf8Encode mnemonic)
                 (C.hkdf tape.tokenSecret tape.salt Current.HKDF_INFO) tape.iv,
               created_at := tape.now,
               expires_at := tape.now +
                 min (duration.getD DEFAULT_DURATION) MAX_DURATION * 1000 }) ∧
    (Current.validateSession C (encodeToken otherId otherSecret) now
        (some r)).2 =
      .error (.wallet .ERR_SESSION_INVALID "Invalid session token") := by
  have hdec := decodeToken_encodeToken otherId otherSecret hidlen hseclen hbytes
  simp only [Current.createSession, Option.some.injEq] at hr
  subst hr
  refine ⟨fun _ => rfl, ?_⟩
  by_cases hid : otherId = tape.tokenId
  · exact congrArg Prod.snd
      (current_validate_tag_mismatch C hdec hnow hid hneq)
  · exact congrArg Prod.snd
      (current_validate_id_mismatch C hdec hnow hid)

/-- The concrete issuance used for the C2 witness. -/
def c2cur_tape : SessionTape :=
  { tokenId := List.replicate 16 11, tokenSecret := List.replicate 32 13,
    salt := List.replicate 32 5, iv := List.replicate 12 6, now := 100 }

/-- State and bearer token after a concrete `Current.createSession`. -/
def c2cur_created : Current.SessionState × List Char :=
  Current.createSession modelPrims "w2" "mnemo" (some 60) c2cur_tape none

/-- The concrete persisted record of the C2 witness. -/
def c2cur_record : SessionFile :=
  c2cur_created.1.getD ⟨0, "", [], [], [], ⟨"", [], [], []⟩, 0, 0⟩

set_option maxRecDepth 16384 in
/-- C2 witness: a concrete issuance, with a forged token carrying a
different secret half rejected as session-invalid. -/
theorem c2_token_secret_not_persisted_witness :
    (Current.validateSession modelPrims
        (encodeToken (List.replicate 16 11) (List.replicate 32 1)) 100
        (some c2cur_record)).2 =
      .error (.wallet .ERR_SESSION_INVALID "Invalid session token") := by
  exact (c2_token_secret_not_persisted modelPrims "w2" "mnemo" (some 60)
    c2cur_tape none 100 c2cur_record (List.replicate 16 11)
    (List.replicate 32 1) (by decide) (by decide) (by decide) (by decide)
    (by decide) (by decide) (by decide)).2
